import Mathlib

/-!
Verification of the scp-action program (src/main.go) against its
specification.

The Go program is shallowly embedded:

* the pure helpers it calls — Go `path.Split`, `path.Clean`,
  `path.Join`, `strings.Split` on newline — are translated as
  executable Lean functions over `List Char` / `String`;
* `VerifyFingerprint` and the two `ssh.ClientConfig` values are
  translated directly, with the external hashing function
  `ssh.FingerprintSHA256` kept abstract as a function parameter;
* the effectful body of `main` (and the `Upload` / `Download` loops)
  is translated as a function producing the trace of observable
  events, parameterised by the environment variables and by an oracle
  (`World`) deciding the outcome of each external call
  (`time.ParseDuration`, `ssh.ParsePrivateKey`, dials, the scp copy
  primitive).  `log.Fatalf` terminates the process via `os.Exit`,
  which does NOT run deferred functions, so on fatal traces no
  deferred `Close` events are appended;
* the watchdog goroutine (`<-actionTimeoutTimer.C; log.Fatalf(...)`)
  is a small step relation interleaved with the main thread's trace.
-/

/-- A public key presented by a remote host during the SSH handshake,
identified by its wire encoding.  Hashing it is done by the external
library function `ssh.FingerprintSHA256`, kept abstract below. -/
structure PublicKey where
  marshal : List UInt8
  deriving DecidableEq

/-- Go `VerifyFingerprint` (src/main.go:144-153).  Takes the expected
fingerprint and returns the host key callback.  The Go callback
returns `error` (`nil` on success), modelled as `Option String`
(`none` on success).  `FingerprintSHA256` is the external
`ssh.FingerprintSHA256` function (SHA-256 of the key's wire encoding
rendered in its canonical textual form), passed as a parameter. -/
def VerifyFingerprint (FingerprintSHA256 : PublicKey → String)
    (expected : String) : String → String → PublicKey → Option String :=
  fun _hostname _remote pubKey =>
    let fingerprint := FingerprintSHA256 pubKey
    if fingerprint ≠ expected then some "fingerprint mismatch"
    else none

/-- The environment variables read by `main` (via `os.Getenv`). -/
structure Env where
  ACTION_TIMEOUT : String
  DIRECTION : String
  TIMEOUT : String
  HOST : String
  KEY : String
  USERNAME : String
  FINGERPRINT : String
  PORT : String
  PROXY_HOST : String
  PROXY_PORT : String
  PROXY_KEY : String
  PROXY_USERNAME : String
  PROXY_FINGERPRINT : String
  SOURCE : String
  TARGET : String
  deriving DecidableEq

/-- The parts of `ssh.ClientConfig` that src/main.go fills in.  The
parsed timeout duration and the signer are kept as the raw strings
they were built from (parsing them is external). -/
structure ClientConfig where
  timeoutRaw : String
  user : String
  authKeyRaw : String
  hostKeyCallback : String → String → PublicKey → Option String

/-- The `targetConfig` value built in `main` (src/main.go:68-75): the
target's user, the target's key, and a host key callback produced by
`VerifyFingerprint` from the target's expected fingerprint. -/
def targetConfig (FingerprintSHA256 : PublicKey → String) (env : Env) :
    ClientConfig :=
  { timeoutRaw := env.TIMEOUT
    user := env.USERNAME
    authKeyRaw := env.KEY
    hostKeyCallback := VerifyFingerprint FingerprintSHA256 env.FINGERPRINT }

/-- The `proxyConfig` value built in `main` (src/main.go:92-99): the
proxy's user, the proxy's key, and a host key callback produced by
`VerifyFingerprint` from the proxy's expected fingerprint. -/
def proxyConfig (FingerprintSHA256 : PublicKey → String) (env : Env) :
    ClientConfig :=
  { timeoutRaw := env.TIMEOUT
    user := env.PROXY_USERNAME
    authKeyRaw := env.PROXY_KEY
    hostKeyCallback := VerifyFingerprint FingerprintSHA256 env.PROXY_FINGERPRINT }

/-- Go `strings.Split s "\n"` on the character list: splits around
every newline; the result always has one more piece than there are
newlines (in particular `splitNL [] = [[]]`). -/
def splitNL : List Char → List (List Char)
  | [] => [[]]
  | c :: t =>
    if c = '\n' then [] :: splitNL t
    else
      match splitNL t with
      | [] => [[c]]
      | h :: r => (c :: h) :: r

/-- `sourceFiles := strings.Split(os.Getenv("SOURCE"), "\n")`
(src/main.go:128). -/
def sourceFilesOf (s : String) : List String :=
  (splitNL s.data).map (fun l => String.mk l)

/-- Go `path.Split`: splits just after the final slash, returning
(directory-part including the slash, file-part).  If there is no
slash the directory part is empty. -/
def splitLastSlash : List Char → List Char × List Char
  | [] => ([], [])
  | c :: t =>
    match splitLastSlash t with
    | ([], f) => if c = '/' then (['/'], f) else ([], c :: f)
    | (d, f) => (c :: d, f)

/-- Go `path.Split` on strings. -/
def goPathSplit (s : String) : String × String :=
  let p := splitLastSlash s.data
  (String.mk p.1, String.mk p.2)

/-- The backtracking loop of Go `path.Clean`'s `..` case:
`out.w--; for out.w > dotdot && out.index(out.w) != '/' { out.w-- }`.
The output buffer is kept reversed (`outRev`); `lastDropped` is the
character at index `out.w` of the underlying buffer, i.e. the one
dropped last. -/
def backtrackAux (dotdot : Nat) : List Char → Char → List Char
  | [], _ => []
  | c :: rest, lastDropped =>
    if rest.length + 1 > dotdot ∧ lastDropped ≠ '/' then
      backtrackAux dotdot rest c
    else c :: rest

/-- Entry to the backtracking loop: the unconditional `out.w--`. -/
def backtrack (dotdot : Nat) : List Char → List Char
  | [] => []
  | c :: rest => backtrackAux dotdot rest c

/-- The main loop of Go `path.Clean` (over `r < n`), with the output
buffer kept reversed.  `fuel` bounds the number of iterations; every
iteration consumes at least one input character, so any fuel of at
least the input length computes the exact Go result. -/
def cleanLoop (rooted : Bool) : Nat → List Char → List Char → Nat → List Char
  | 0, _, outRev, _ => outRev
  | _ + 1, [], outRev, _ => outRev
  | fuel + 1, c :: t, outRev, dotdot =>
    if c = '/' then
      -- empty path element
      cleanLoop rooted fuel t outRev dotdot
    else if c = '.' ∧ (t = [] ∨ t.head? = some '/') then
      -- `.` element
      cleanLoop rooted fuel t outRev dotdot
    else if c = '.' ∧ t.head? = some '.' ∧
        (t.tail = [] ∨ t.tail.head? = some '/') then
      -- `..` element
      if outRev.length > dotdot then
        cleanLoop rooted fuel t.tail (backtrack dotdot outRev) dotdot
      else if rooted = false then
        let outRev1 := if outRev.length > 0 then '/' :: outRev else outRev
        let outRev2 := '.' :: '.' :: outRev1
        cleanLoop rooted fuel t.tail outRev2 outRev2.length
      else
        cleanLoop rooted fuel t.tail outRev dotdot
    else
      -- real path element: add slash if needed, then copy the element
      let base :=
        if (rooted ∧ outRev.length ≠ 1) ∨ (rooted = false ∧ outRev.length ≠ 0)
        then '/' :: outRev else outRev
      let seg := (c :: t).takeWhile (fun x => x ≠ '/')
      cleanLoop rooted fuel ((c :: t).dropWhile (fun x => x ≠ '/'))
        (seg.reverse ++ base) dotdot

/-- Go `path.Clean`. -/
def goPathClean (s : String) : String :=
  if s = "" then "."
  else
    let l := s.data
    let rooted := l.head? = some '/'
    let outRev :=
      if rooted then cleanLoop true (l.length + 1) l.tail ['/'] 1
      else cleanLoop false (l.length + 1) l [] 0
    if outRev = [] then "." else String.mk outRev.reverse

/-- Go `path.Join` restricted to two elements, as called by
`Upload` / `Download`: concatenate the non-empty elements with `/`
in between and `Clean` the result (empty result if both are empty). -/
def goPathJoin (a b : String) : String :=
  if a = "" ∧ b = "" then ""
  else if a = "" then goPathClean b
  else goPathClean (a ++ "/" ++ b)

/-- The observable events of a run of `main`.  `exitFatal` is
`log.Fatalf` (one diagnostic line with the given static text, then
`os.Exit(1)`, which skips deferred functions); `exitNormal` is the
normal return from `main` (process exit status 0). -/
inductive Event where
  | armTimer
  | dialProxy (addr : String)
  | openProxySession
  | dialTargetViaProxy (addr : String)
  | handshakeTarget
  | dialTargetDirect (addr : String)
  | openTargetSession
  | copyAttempt (direction source target : String)
  | progress (source target : String)
  | printCount (n : Nat)
  | closeTargetSession
  | closeProxySession
  | exitFatal (msg : String)
  | exitNormal
  deriving DecidableEq

/-- Oracle for the external calls `main` makes: whether
`time.ParseDuration` / `ssh.ParsePrivateKey` succeed on a given
string, whether a dial (TCP connect + SSH handshake, including host
key verification) to a given address succeeds, whether the proxy can
open the tunnel to the target, whether the target handshake over the
tunnel succeeds, and whether the i-th scp copy succeeds. -/
structure World where
  parseDurationOk : String → Bool
  parsePrivateKeyOk : String → Bool
  dialOk : String → Bool
  proxyDialTargetOk : Bool
  newClientConnOk : Bool
  copyOk : Nat → Bool

/-- The loop body of Go `Upload` (src/main.go:156-172): for each
source file, split off the file name, join it to the target folder,
attempt the copy; on failure `log.Fatalf` (fatal, no count returned),
on success log a progress line and increment the count.  Returns the
events together with `some finalCount` on completion or `none` on
abort. -/
def uploadGo (copyOk : Nat → Bool) (targetFolder : String) :
    List String → Nat → List Event × Option Nat
  | [], transferredFiles => ([], some transferredFiles)
  | sourceFile :: rest, transferredFiles =>
    let file := (goPathSplit sourceFile).2
    let targetFile := goPathJoin targetFolder file
    if copyOk transferredFiles then
      let r := uploadGo copyOk targetFolder rest (transferredFiles + 1)
      (Event.copyAttempt "upload" sourceFile targetFile ::
        Event.progress sourceFile targetFile :: r.1, r.2)
    else
      ([Event.copyAttempt "upload" sourceFile targetFile,
        Event.exitFatal "Failed to upload file to remote"], none)

/-- Go `Upload` (src/main.go:156-172). -/
def Upload (copyOk : Nat → Bool) (sourceFiles : List String)
    (targetFolder : String) : List Event × Option Nat :=
  uploadGo copyOk targetFolder sourceFiles 0

/-- The loop body of Go `Download` (src/main.go:175-191), identical to
`uploadGo` except for the direction tag and the fatal message. -/
def downloadGo (copyOk : Nat → Bool) (targetFolder : String) :
    List String → Nat → List Event × Option Nat
  | [], transferredFiles => ([], some transferredFiles)
  | sourceFile :: rest, transferredFiles =>
    let file := (goPathSplit sourceFile).2
    let targetFile := goPathJoin targetFolder file
    if copyOk transferredFiles then
      let r := downloadGo copyOk targetFolder rest (transferredFiles + 1)
      (Event.copyAttempt "download" sourceFile targetFile ::
        Event.progress sourceFile targetFile :: r.1, r.2)
    else
      ([Event.copyAttempt "download" sourceFile targetFile,
        Event.exitFatal "Failed to download file from remote"], none)

/-- Go `Download` (src/main.go:175-191). -/
def Download (copyOk : Nat → Bool) (sourceFiles : List String)
    (targetFolder : String) : List Event × Option Nat :=
  downloadGo copyOk targetFolder sourceFiles 0

/-- `targetAddress := os.Getenv("HOST") + ":" + os.Getenv("PORT")`
(src/main.go:78). -/
def targetAddressOf (env : Env) : String := env.HOST ++ ":" ++ env.PORT

/-- `proxyAddress := proxyHost + ":" + os.Getenv("PROXY_PORT")`
(src/main.go:102). -/
def proxyAddressOf (env : Env) : String :=
  env.PROXY_HOST ++ ":" ++ env.PROXY_PORT

/-- The transfer dispatch of `main` (src/main.go:128-138): split the
sources on newlines, trim the target folder, then run `Upload` or
`Download` according to the (already validated) direction. -/
def transferPhase (env : Env) (w : World) : List Event × Option Nat :=
  let sourceFiles := sourceFilesOf env.SOURCE
  let targetFolder := env.TARGET.trim
  if env.DIRECTION = "upload" then Upload w.copyOk sourceFiles targetFolder
  else if env.DIRECTION = "download" then
    Download w.copyOk sourceFiles targetFolder
  else ([], some 0)

/-- The tail of the trace after the transfer loop: on completion,
`main` logs the count and returns, at which point the deferred closes
run in reverse order of registration (`targetClient.Close` first,
then — if a proxy was used — `proxyClient.Close`); on abort the loop
already ended the process with `log.Fatalf`, so nothing (in
particular no deferred close) follows. -/
def finishTrace (proxied : Bool) : List Event × Option Nat → List Event
  | (evs, some n) =>
    evs ++ [Event.printCount n, Event.closeTargetSession] ++
      (if proxied then [Event.closeProxySession] else []) ++ [Event.exitNormal]
  | (evs, none) => evs

/-- The trace of `main` after the watchdog timer has been armed
(src/main.go:43-141): validate direction, timeout, host; parse the
target key (note: the fatal message for the target key says
"Failed to parse proxy key", exactly as in the source); then either
the proxied path (parse proxy key, dial proxy, tunnel-dial the
target, target handshake) or the direct dial, followed by the
transfer phase. -/
def mainAfterArm (env : Env) (w : World) : List Event :=
  if env.DIRECTION ≠ "download" ∧ env.DIRECTION ≠ "upload" then
    [Event.exitFatal "Failed to parse direction"]
  else if w.parseDurationOk env.TIMEOUT = false then
    [Event.exitFatal "Failed to parse timeout"]
  else if env.HOST = "" then
    [Event.exitFatal "Failed to parse target host"]
  else if w.parsePrivateKeyOk env.KEY = false then
    [Event.exitFatal "Failed to parse proxy key"]
  else if env.PROXY_HOST ≠ "" then
    if w.parsePrivateKeyOk env.PROXY_KEY = false then
      [Event.exitFatal "Failed to parse proxy key"]
    else if w.dialOk (proxyAddressOf env) = false then
      [Event.dialProxy (proxyAddressOf env),
       Event.exitFatal "Failed to connect to proxy"]
    else
      [Event.dialProxy (proxyAddressOf env), Event.openProxySession,
       Event.dialTargetViaProxy (targetAddressOf env)] ++
      (if w.proxyDialTargetOk = false then
        [Event.exitFatal "Failed to dial to target"]
      else
        Event.handshakeTarget ::
        (if w.newClientConnOk = false then
          [Event.exitFatal "new target conn error"]
        else
          Event.openTargetSession :: finishTrace true (transferPhase env w)))
  else
    Event.dialTargetDirect (targetAddressOf env) ::
      (if w.dialOk (targetAddressOf env) = false then
        [Event.exitFatal "Failed to connect to target"]
      else
        Event.openTargetSession :: finishTrace false (transferPhase env w))

/-- The trace of `main` (src/main.go:25-141): parse the action
timeout (fatal on failure, before the timer exists), arm the watchdog
timer, then the rest. -/
def runMain (env : Env) (w : World) : List Event :=
  if w.parseDurationOk env.ACTION_TIMEOUT = false then
    [Event.exitFatal "Failed to parse action timeout"]
  else Event.armTimer :: mainAfterArm env w

/-- Events that are network activity: dialing the proxy, dialing the
target (directly, or through the proxy tunnel), the target handshake
over the tunnel, and each scp copy. -/
def isNetworkEvent : Event → Bool
  | Event.dialProxy _ => true
  | Event.dialTargetViaProxy _ => true
  | Event.dialTargetDirect _ => true
  | Event.handshakeTarget => true
  | Event.copyAttempt _ _ _ => true
  | _ => false

/-- Events that are a connection attempt to the target. -/
def isTargetDial : Event → Bool
  | Event.dialTargetViaProxy _ => true
  | Event.dialTargetDirect _ => true
  | Event.handshakeTarget => true
  | _ => false

/-- Events the transfer loops can emit. -/
def isTransferEvent : Event → Bool
  | Event.copyAttempt _ _ _ => true
  | Event.progress _ _ => true
  | Event.exitFatal _ => true
  | _ => false

/-- The progress records ("source >> target" log lines). -/
def isProgress : Event → Bool
  | Event.progress _ _ => true
  | _ => false

/-- The (source, destination) pairs of the copies attempted in a
trace, in order. -/
def attemptedPairs (evs : List Event) : List (String × String) :=
  evs.filterMap fun e =>
    match e with
    | Event.copyAttempt _ s t => some (s, t)
    | _ => none

/-- The source paths of the copies attempted in a trace, in order. -/
def attemptedSources (evs : List Event) : List String :=
  (attemptedPairs evs).map Prod.fst

/-- State of the process as seen by the watchdog model: the events the
main thread has yet to emit, whether the action timeout timer has
fired, and whether (and how) the process has exited
(`some true` = normal exit, `some false` = abnormal exit). -/
structure WDState where
  remaining : List Event
  fired : Bool
  done : Option Bool
  deriving DecidableEq

/-- Effect of the main thread emitting one event: a normal return
exits with status 0, `log.Fatalf` exits with non-zero status, every
other event leaves the process running. -/
def mainExitEffect : Event → Option Bool
  | Event.exitNormal => some true
  | Event.exitFatal _ => some false
  | _ => none

/-- Interleaved steps of the process.  The main thread emits its next
event; the timer may fire at any point while the process is alive;
once the timer has fired, the watchdog goroutine's `log.Fatalf` runs
(it is the sole statement after receiving on the timer channel, so
the model gives it priority over further main-thread steps) and the
process exits abnormally. -/
inductive WDStep : WDState → WDState → Prop where
  | mainStep (e : Event) (rest : List Event) :
      WDStep ⟨e :: rest, false, none⟩ ⟨rest, false, mainExitEffect e⟩
  | fire (rem : List Event) :
      WDStep ⟨rem, false, none⟩ ⟨rem, true, none⟩
  | watchdogFatal (rem : List Event) :
      WDStep ⟨rem, true, none⟩ ⟨rem, true, some false⟩

/-- Reachability of process states from the start of a run. -/
def WDReachable (env : Env) (w : World) (s : WDState) : Prop :=
  Relation.ReflTransGen WDStep ⟨runMain env w, false, none⟩ s

/-- A fully valid environment with a proxy configured. -/
def envProxied : Env :=
  { ACTION_TIMEOUT := "10m", DIRECTION := "upload", TIMEOUT := "30s"
    HOST := "target.example.com", KEY := "targetkey", USERNAME := "u"
    FINGERPRINT := "SHA256:T", PORT := "22"
    PROXY_HOST := "proxy.example.com", PROXY_PORT := "2022"
    PROXY_KEY := "proxykey", PROXY_USERNAME := "pu"
    PROXY_FINGERPRINT := "SHA256:P"
    SOURCE := "a.txt", TARGET := "/out" }

/-- A fully valid environment without a proxy. -/
def envDirect : Env :=
  { envProxied with
    PROXY_HOST := ""
    PROXY_PORT := ""
    PROXY_KEY := ""
    PROXY_USERNAME := ""
    PROXY_FINGERPRINT := "" }

/-- A world in which every external call succeeds. -/
def worldAllGood : World :=
  { parseDurationOk := fun _ => true, parsePrivateKeyOk := fun _ => true
    dialOk := fun _ => true, proxyDialTargetOk := true
    newClientConnOk := true, copyOk := fun _ => true }

/-- An environment whose TARGET private key is unparseable and which
configures no proxy at all. -/
def envBadTargetKey : Env :=
  { envDirect with KEY := "not a private key" }

/-- A world in which durations parse but private key parsing fails. -/
def worldBadKey : World :=
  { worldAllGood with parsePrivateKeyOk := fun _ => false }

/-- An otherwise valid direct environment whose expected target
fingerprint (a required field) is the empty string. -/
def envEmptyFingerprint : Env :=
  { envDirect with FINGERPRINT := "" }

/-- A world in which every dial fails (for an empty expected
fingerprint, host key verification — part of the dial — fails). -/
def worldDialFails : World :=
  { worldAllGood with dialOk := fun _ => false }

/-- An otherwise valid environment with an invalid transfer
direction. -/
def envBadDirection : Env :=
  { envDirect with DIRECTION := "sideways" }

/-- A world in which the proxy session is established but the target
handshake over the tunnel fails. -/
def worldHandshakeFails : World :=
  { worldAllGood with newClientConnOk := false }

/-- A world in which the dial to the proxy fails. -/
def worldProxyDialFails : World :=
  { worldAllGood with dialOk := fun _ => false }

lemma splitNL_ne_nil : ∀ l : List Char, splitNL l ≠ [] := by
  intro l
  induction l with
  | nil => simp [splitNL]
  | cons c t ih =>
    unfold splitNL
    by_cases hc : c = '\n'
    · simp [hc]
    · simp only [hc, if_false]
      cases h : splitNL t <;> simp

lemma splitLastSlash_snd_no_slash : ∀ l : List Char, '/' ∉ (splitLastSlash l).2 := by
  intro l
  induction l with
  | nil => simp [splitLastSlash]
  | cons c t ih =>
    unfold splitLastSlash
    cases h : splitLastSlash t with
    | mk d f =>
      rw [h] at ih
      cases d with
      | nil =>
        by_cases hc : c = '/' <;> simp [hc, ih]
        exact fun hcontra => hc hcontra.symm
      | cons d0 ds => simpa using ih

lemma uploadGo_mem (copyOk : Nat → Bool) (folder : String) :
    ∀ (files : List String) (c : Nat) (e : Event),
      e ∈ (uploadGo copyOk folder files c).1 → isTransferEvent e = true := by
  intro files
  induction files with
  | nil => intro c e he; simp [uploadGo] at he
  | cons f rest ih =>
    intro c e he
    unfold uploadGo at he
    by_cases hc : copyOk c
    · simp only [hc, if_true, List.mem_cons] at he
      rcases he with rfl | rfl | hmem
      · rfl
      · rfl
      · exact ih (c + 1) e hmem
    · simp only [Bool.not_eq_true] at hc
      simp only [hc, Bool.false_eq_true, if_false, List.mem_cons,
        List.mem_singleton] at he
      rcases he with rfl | rfl | hmem
      · rfl
      · rfl
      · simp at hmem

lemma downloadGo_mem (copyOk : Nat → Bool) (folder : String) :
    ∀ (files : List String) (c : Nat) (e : Event),
      e ∈ (downloadGo copyOk folder files c).1 → isTransferEvent e = true := by
  intro files
  induction files with
  | nil => intro c e he; simp [downloadGo] at he
  | cons f rest ih =>
    intro c e he
    unfold downloadGo at he
    by_cases hc : copyOk c
    · simp only [hc, if_true, List.mem_cons] at he
      rcases he with rfl | rfl | hmem
      · rfl
      · rfl
      · exact ih (c + 1) e hmem
    · simp only [Bool.not_eq_true] at hc
      simp only [hc, Bool.false_eq_true, if_false, List.mem_cons,
        List.mem_singleton] at he
      rcases he with rfl | rfl | hmem
      · rfl
      · rfl
      · simp at hmem

lemma uploadGo_abort (copyOk : Nat → Bool) (folder : String) :
    ∀ (j : Nat) (files : List String) (c : Nat), j < files.length →
      (∀ i, i < j → copyOk (c + i) = true) → copyOk (c + j) = false →
      (uploadGo copyOk folder files c).2 = none ∧
      attemptedSources (uploadGo copyOk folder files c).1 = files.take (j + 1) ∧
      (uploadGo copyOk folder files c).1.countP isProgress = j ∧
      (uploadGo copyOk folder files c).1.getLast? =
        some (Event.exitFatal "Failed to upload file to remote") := by
  intro j
  induction j with
  | zero =>
    intro files c hlen hsucc hfail
    cases files with
    | nil => simp at hlen
    | cons f rest =>
      have h0 : copyOk c = false := by simpa using hfail
      simp [uploadGo, h0, attemptedSources, attemptedPairs, isProgress]
  | succ j ih =>
    intro files c hlen hsucc hfail
    cases files with
    | nil => simp at hlen
    | cons f rest =>
      have h0 : copyOk c = true := by simpa using hsucc 0 (Nat.succ_pos j)
      have hrec := ih rest (c + 1) (by simpa using hlen)
        (fun i hi => by
          have := hsucc (i + 1) (by omega)
          simpa [Nat.add_assoc, Nat.add_comm 1 i] using this)
        (by
          have := hfail
          simpa [Nat.add_assoc, Nat.add_comm 1 j] using this)
      obtain ⟨h1, h2, h3, h4⟩ := hrec
      have hne : (uploadGo copyOk folder rest (c + 1)).1 ≠ [] := by
        intro hnil
        rw [hnil] at h4
        simp at h4
      refine ⟨?_, ?_, ?_, ?_⟩
      · simp [uploadGo, h0, h1]
      · simp [uploadGo, h0, attemptedSources, attemptedPairs] at h2 ⊢
        simpa using h2
      · simp [uploadGo, h0, List.countP_cons, isProgress, h3]
      · simp only [uploadGo, h0, if_true]
        cases hl : (uploadGo copyOk folder rest (c + 1)).1 with
        | nil => exact absurd hl hne
        | cons x xs =>
          rw [hl] at h4
          simpa using h4

lemma downloadGo_abort (copyOk : Nat → Bool) (folder : String) :
    ∀ (j : Nat) (files : List String) (c : Nat), j < files.length →
      (∀ i, i < j → copyOk (c + i) = true) → copyOk (c + j) = false →
      (downloadGo copyOk folder files c).2 = none ∧
      attemptedSources (downloadGo copyOk folder files c).1 = files.take (j + 1) ∧
      (downloadGo copyOk folder files c).1.countP isProgress = j ∧
      (downloadGo copyOk folder files c).1.getLast? =
        some (Event.exitFatal "Failed to download file from remote") := by
  intro j
  induction j with
  | zero =>
    intro files c hlen hsucc hfail
    cases files with
    | nil => simp at hlen
    | cons f rest =>
      have h0 : copyOk c = false := by simpa using hfail
      simp [downloadGo, h0, attemptedSources, attemptedPairs, isProgress]
  | succ j ih =>
    intro files c hlen hsucc hfail
    cases files with
    | nil => simp at hlen
    | cons f rest =>
      have h0 : copyOk c = true := by simpa using hsucc 0 (Nat.succ_pos j)
      have hrec := ih rest (c + 1) (by simpa using hlen)
        (fun i hi => by
          have := hsucc (i + 1) (by omega)
          simpa [Nat.add_assoc, Nat.add_comm 1 i] using this)
        (by
          have := hfail
          simpa [Nat.add_assoc, Nat.add_comm 1 j] using this)
      obtain ⟨h1, h2, h3, h4⟩ := hrec
      have hne : (downloadGo copyOk folder rest (c + 1)).1 ≠ [] := by
        intro hnil
        rw [hnil] at h4
        simp at h4
      refine ⟨?_, ?_, ?_, ?_⟩
      · simp [downloadGo, h0, h1]
      · simp [downloadGo, h0, attemptedSources, attemptedPairs] at h2 ⊢
        simpa using h2
      · simp [downloadGo, h0, List.countP_cons, isProgress, h3]
      · simp only [downloadGo, h0, if_true]
        cases hl : (downloadGo copyOk folder rest (c + 1)).1 with
        | nil => exact absurd hl hne
        | cons x xs =>
          rw [hl] at h4
          simpa using h4

lemma uploadGo_pairs (folder : String) :
    ∀ (files : List String) (c : Nat),
      attemptedPairs (uploadGo (fun _ => true) folder files c).1 =
        files.map (fun s => (s, goPathJoin folder (goPathSplit s).2)) := by
  intro files
  induction files with
  | nil => intro c; simp [uploadGo, attemptedPairs]
  | cons f rest ih =>
    intro c
    simp [uploadGo, attemptedPairs] at ih ⊢
    exact ih (c + 1)

lemma downloadGo_pairs (folder : String) :
    ∀ (files : List String) (c : Nat),
      attemptedPairs (downloadGo (fun _ => true) folder files c).1 =
        files.map (fun s => (s, goPathJoin folder (goPathSplit s).2)) := by
  intro files
  induction files with
  | nil => intro c; simp [downloadGo, attemptedPairs]
  | cons f rest ih =>
    intro c
    simp [downloadGo, attemptedPairs] at ih ⊢
    exact ih (c + 1)

/-- C1: for every expected fingerprint string, presented key, hostname
and remote address, the predicate produced by `VerifyFingerprint`
succeeds exactly when the (canonical textual) SHA-256 fingerprint of
the presented key equals the expected string byte for byte, and
otherwise returns the fingerprint-mismatch failure. -/
theorem claim1_identity_verifier :
    ∀ (FingerprintSHA256 : PublicKey → String)
      (expected hostname remote : String) (key : PublicKey),
      (VerifyFingerprint FingerprintSHA256 expected hostname remote key = none ↔
        FingerprintSHA256 key = expected) ∧
      (VerifyFingerprint FingerprintSHA256 expected hostname remote key =
          some "fingerprint mismatch" ↔ FingerprintSHA256 key ≠ expected) := by
  intro FP expected hostname remote key
  unfold VerifyFingerprint
  by_cases hq : FP key = expected <;> simp [hq]

/-- C2: if the copy primitive succeeds on the first j sources and
fails on source j (0-based; the (j+1)-th source, 1-based), then both
`Upload` and `Download` abort: no result count is returned, the
attempted sources are exactly the first j+1 ones (nothing after the
failing source is attempted), exactly j progress records were emitted
before the failure (the count of files transferred strictly before
it), and the trace ends with the fatal transfer error. -/
theorem claim2_fail_fast_abort :
    ∀ (copyOk : Nat → Bool) (sourceFiles : List String)
      (targetFolder : String) (j : Nat),
      j < sourceFiles.length →
      (∀ i, i < j → copyOk i = true) → copyOk j = false →
      ((Upload copyOk sourceFiles targetFolder).2 = none ∧
        attemptedSources (Upload copyOk sourceFiles targetFolder).1 =
          sourceFiles.take (j + 1) ∧
        (Upload copyOk sourceFiles targetFolder).1.countP isProgress = j ∧
        (Upload copyOk sourceFiles targetFolder).1.getLast? =
          some (Event.exitFatal "Failed to upload file to remote")) ∧
      ((Download copyOk sourceFiles targetFolder).2 = none ∧
        attemptedSources (Download copyOk sourceFiles targetFolder).1 =
          sourceFiles.take (j + 1) ∧
        (Download copyOk sourceFiles targetFolder).1.countP isProgress = j ∧
        (Download copyOk sourceFiles targetFolder).1.getLast? =
          some (Event.exitFatal "Failed to download file from remote")) := by
  intro copyOk sourceFiles targetFolder j hlen hsucc hfail
  constructor
  · have h := uploadGo_abort copyOk targetFolder j sourceFiles 0 hlen
      (fun i hi => by simpa using hsucc i hi) (by simpa using hfail)
    exact h
  · have h := downloadGo_abort copyOk targetFolder j sourceFiles 0 hlen
      (fun i hi => by simpa using hsucc i hi) (by simpa using hfail)
    exact h

/-- Witness for C2 at the spec's own example shape: three sources,
the copy primitive succeeds on the first and fails on the second;
the run aborts with count 1 and the third source is never attempted. -/
theorem claim2_witness :
    (Upload (fun i => i == 0) ["/a/s1", "/a/s2", "/a/s3"] "/dst").2 = none ∧
    attemptedSources
        (Upload (fun i => i == 0) ["/a/s1", "/a/s2", "/a/s3"] "/dst").1 =
      ["/a/s1", "/a/s2"] ∧
    (Upload (fun i => i == 0)
        ["/a/s1", "/a/s2", "/a/s3"] "/dst").1.countP isProgress = 1 := by
  have h := claim2_fail_fast_abort (fun i => i == 0)
    ["/a/s1", "/a/s2", "/a/s3"] "/dst" 1 (by decide)
    (fun i hi => by
      have : i = 0 := by omega
      subst this
      rfl)
    (by decide)
  exact ⟨h.1.1, by simpa using h.1.2.1, h.1.2.2.1⟩

/-- C3: every attempted copy maps a source to the destination obtained
by joining the source's final path component (which contains no slash:
any directory prefix is discarded) onto the destination directory, in
source-list order; in particular sources /a/b/x.txt and /c/y.txt with
destination /out map to /out/x.txt then /out/y.txt, in that order. -/
theorem claim3_destination_mapping :
    (∀ (sourceFiles : List String) (targetFolder : String),
      attemptedPairs (Upload (fun _ => true) sourceFiles targetFolder).1 =
        sourceFiles.map
          (fun s => (s, goPathJoin targetFolder (goPathSplit s).2)) ∧
      attemptedPairs (Download (fun _ => true) sourceFiles targetFolder).1 =
        sourceFiles.map
          (fun s => (s, goPathJoin targetFolder (goPathSplit s).2))) ∧
    (∀ s : String, '/' ∉ ((goPathSplit s).2).data) ∧
    attemptedPairs
        (Upload (fun _ => true) ["/a/b/x.txt", "/c/y.txt"] "/out").1 =
      [("/a/b/x.txt", "/out/x.txt"), ("/c/y.txt", "/out/y.txt")] := by
  refine ⟨?_, ?_, ?_⟩
  · intro sourceFiles targetFolder
    exact ⟨uploadGo_pairs targetFolder sourceFiles 0,
      downloadGo_pairs targetFolder sourceFiles 0⟩
  · intro s
    simpa [goPathSplit] using splitLastSlash_snd_no_slash s.data
  · decide

/-- C6: the host key callback installed in the target's client
configuration is the Identity Verifier built from the target's own
expected fingerprint and the proxy's from the proxy's own expected
fingerprint; each accepts a key exactly when that key's fingerprint
equals its own endpoint's expected fingerprint, and each is unchanged
by any reconfiguration that keeps its own endpoint's fingerprint
(in particular by changes to the other endpoint's fingerprint). -/
theorem claim6_endpoint_specific_verifiers :
    ∀ (FingerprintSHA256 : PublicKey → String) (env : Env)
      (hostname remote : String) (key : PublicKey),
      ((targetConfig FingerprintSHA256 env).hostKeyCallback =
        VerifyFingerprint FingerprintSHA256 env.FINGERPRINT) ∧
      ((proxyConfig FingerprintSHA256 env).hostKeyCallback =
        VerifyFingerprint FingerprintSHA256 env.PROXY_FINGERPRINT) ∧
      ((targetConfig FingerprintSHA256 env).hostKeyCallback hostname remote key
          = none ↔ FingerprintSHA256 key = env.FINGERPRINT) ∧
      ((proxyConfig FingerprintSHA256 env).hostKeyCallback hostname remote key
          = none ↔ FingerprintSHA256 key = env.PROXY_FINGERPRINT) ∧
      (∀ env2 : Env, env2.FINGERPRINT = env.FINGERPRINT →
        (targetConfig FingerprintSHA256 env2).hostKeyCallback =
          (targetConfig FingerprintSHA256 env).hostKeyCallback) ∧
      (∀ env2 : Env, env2.PROXY_FINGERPRINT = env.PROXY_FINGERPRINT →
        (proxyConfig FingerprintSHA256 env2).hostKeyCallback =
          (proxyConfig FingerprintSHA256 env).hostKeyCallback) := by
  intro FP env hostname remote key
  refine ⟨rfl, rfl, ?_, ?_, ?_, ?_⟩
  · unfold targetConfig VerifyFingerprint
    by_cases hq : FP key = env.FINGERPRINT <;> simp [hq]
  · unfold proxyConfig VerifyFingerprint
    by_cases hq : FP key = env.PROXY_FINGERPRINT <;> simp [hq]
  · intro env2 he
    unfold targetConfig
    rw [he]
  · intro env2 he
    unfold proxyConfig
    rw [he]

/-- Witness for C6: with everything but the proxy fingerprint changed
or kept, the target's callback is unchanged, and the target's
callback accepts a key whose fingerprint is the target's expected
one. -/
theorem claim6_witness :
    (targetConfig (fun _ => "SHA256:T")
        { envProxied with PROXY_FINGERPRINT := "SHA256:OTHER" }).hostKeyCallback =
      (targetConfig (fun _ => "SHA256:T") envProxied).hostKeyCallback ∧
    (targetConfig (fun _ => "SHA256:T") envProxied).hostKeyCallback
      "target.example.com" "10.0.0.1:22" ⟨[]⟩ = none := by
  have h := claim6_endpoint_specific_verifiers (fun _ => "SHA256:T")
    envProxied "target.example.com" "10.0.0.1:22" ⟨[]⟩
  exact ⟨h.2.2.2.2.1 { envProxied with PROXY_FINGERPRINT := "SHA256:OTHER" } rfl,
    h.2.2.1.mpr rfl⟩

/-- C9 (bug evidence): with an unparseable TARGET credential and no
proxy configured, the run's single fatal diagnostic line is
"Failed to parse proxy key" — it names the proxy, not the target, so
the diagnostic is not specific to the endpoint that supplied the
key (src/main.go:64 reuses the proxy message for the target key). -/
theorem claim9_target_key_misdiagnosed :
    runMain envBadTargetKey worldBadKey =
      [Event.armTimer, Event.exitFatal "Failed to parse proxy key"] := by
  decide

/-- C10: splitting the newline-delimited source input never yields an
empty list; on the empty source input it yields exactly the
one-element list [""], so the transfer loop attempts exactly one copy
whose source path is the empty string and whose destination is the
join of the empty filename onto the destination directory. -/
theorem claim10_empty_source_single_copy :
    (∀ s : String, sourceFilesOf s ≠ []) ∧
    sourceFilesOf "" = [""] ∧
    (∀ (targetFolder : String) (copyOk : Nat → Bool),
      attemptedPairs (Upload copyOk (sourceFilesOf "") targetFolder).1 =
        [("", goPathJoin targetFolder "")] ∧
      attemptedPairs (Download copyOk (sourceFilesOf "") targetFolder).1 =
        [("", goPathJoin targetFolder "")]) := by
  refine ⟨?_, by decide, ?_⟩
  · intro s
    unfold sourceFilesOf
    simpa using splitNL_ne_nil s.data
  · intro targetFolder copyOk
    have hsrc : sourceFilesOf "" = [""] := by decide
    have hsplit : (goPathSplit "").2 = "" := by decide
    rw [hsrc]
    constructor
    · cases h0 : copyOk 0 <;>
        simp [Upload, uploadGo, h0, hsplit, attemptedPairs]
    · cases h0 : copyOk 0 <;>
        simp [Download, downloadGo, h0, hsplit, attemptedPairs]

lemma transferPhase_mem (env : Env) (w : World) :
    ∀ e ∈ (transferPhase env w).1, isTransferEvent e = true := by
  intro e he
  unfold transferPhase at he
  by_cases h1 : env.DIRECTION = "upload"
  · simp only [h1, if_true] at he
    exact uploadGo_mem w.copyOk env.TARGET.trim (sourceFilesOf env.SOURCE) 0 e he
  · simp only [h1, if_false] at he
    by_cases h2 : env.DIRECTION = "download"
    · simp only [h2, if_true] at he
      exact downloadGo_mem w.copyOk env.TARGET.trim (sourceFilesOf env.SOURCE) 0 e he
    · simp only [h2, if_false] at he
      simp at he

lemma finishTrace_mem (env : Env) (w : World) (b : Bool) :
    ∀ e ∈ finishTrace b (transferPhase env w),
      isTransferEvent e = true ∨ (∃ n, e = Event.printCount n) ∨
      e = Event.closeTargetSession ∨
      (b = true ∧ e = Event.closeProxySession) ∨ e = Event.exitNormal := by
  intro e he
  have hm := transferPhase_mem env w
  rcases htr : transferPhase env w with ⟨evs, res⟩
  rw [htr] at he hm
  simp only at hm
  cases res with
  | none =>
    left
    exact hm e (by simpa [finishTrace] using he)
  | some n =>
    cases b with
    | false =>
      simp only [finishTrace, Bool.false_eq_true, if_false, List.append_nil,
        List.mem_append, List.mem_cons, List.mem_singleton,
        List.not_mem_nil, or_false] at he
      rcases he with (he | rfl | rfl) | rfl
      · exact Or.inl (hm e he)
      · exact Or.inr (Or.inl ⟨n, rfl⟩)
      · exact Or.inr (Or.inr (Or.inl rfl))
      · exact Or.inr (Or.inr (Or.inr (Or.inr rfl)))
    | true =>
      simp only [finishTrace, if_true, List.mem_append, List.mem_cons,
        List.mem_singleton, List.not_mem_nil, or_false] at he
      rcases he with ((he | rfl | rfl) | rfl) | rfl
      · exact Or.inl (hm e he)
      · exact Or.inr (Or.inl ⟨n, rfl⟩)
      · exact Or.inr (Or.inr (Or.inl rfl))
      · exact Or.inr (Or.inr (Or.inr (Or.inl ⟨rfl, rfl⟩)))
      · exact Or.inr (Or.inr (Or.inr (Or.inr rfl)))

lemma armTimer_not_mem_finishTrace (env : Env) (w : World) (b : Bool) :
    Event.armTimer ∉ finishTrace b (transferPhase env w) := by
  intro he
  rcases finishTrace_mem env w b Event.armTimer he with h | ⟨n, h⟩ | h | ⟨_, h⟩ | h <;>
    simp [isTransferEvent] at h

lemma armTimer_not_mem_mainAfterArm (env : Env) (w : World) :
    Event.armTimer ∉ mainAfterArm env w := by
  unfold mainAfterArm
  by_cases hdir : env.DIRECTION ≠ "download" ∧ env.DIRECTION ≠ "upload"
  · rw [if_pos hdir]; simp
  · rw [if_neg hdir]
    by_cases htm : w.parseDurationOk env.TIMEOUT = false
    · rw [if_pos htm]; simp
    · rw [if_neg htm]
      by_cases hhost : env.HOST = ""
      · rw [if_pos hhost]; simp
      · rw [if_neg hhost]
        by_cases hkey : w.parsePrivateKeyOk env.KEY = false
        · rw [if_pos hkey]; simp
        · rw [if_neg hkey]
          by_cases hproxy : env.PROXY_HOST ≠ ""
          · rw [if_pos hproxy]
            by_cases hpkey : w.parsePrivateKeyOk env.PROXY_KEY = false
            · rw [if_pos hpkey]; simp
            · rw [if_neg hpkey]
              by_cases hpd : w.dialOk (proxyAddressOf env) = false
              · rw [if_pos hpd]; simp
              · rw [if_neg hpd]
                by_cases htun : w.proxyDialTargetOk = false
                · rw [if_pos htun]; simp
                · rw [if_neg htun]
                  by_cases hhs : w.newClientConnOk = false
                  · rw [if_pos hhs]; simp
                  · rw [if_neg hhs]
                    intro hmem
                    simp only [List.mem_append, List.mem_cons,
                      List.not_mem_nil, or_false, reduceCtorEq,
                      false_or] at hmem
                    exact armTimer_not_mem_finishTrace env w true hmem
          · rw [if_neg hproxy]
            by_cases hdial : w.dialOk (targetAddressOf env) = false
            · rw [if_pos hdial]; simp
            · rw [if_neg hdial]
              intro hmem
              simp only [List.mem_cons, reduceCtorEq, false_or] at hmem
              exact armTimer_not_mem_finishTrace env w false hmem

/-- C4: the watchdog timer is armed exactly once per run that gets
past parsing its duration, and no network event ever precedes the
arming event in the trace; moreover, in the interleaved process
model, from any reachable state in which the timer has fired before
the run completed, the process can no longer exit normally, and while
it is still alive the watchdog's fatal termination step is enabled. -/
theorem claim4_watchdog :
    (∀ (env : Env) (w : World),
      (runMain env w).countP (fun e => e == Event.armTimer) ≤ 1 ∧
      (w.parseDurationOk env.ACTION_TIMEOUT = true →
        (runMain env w).countP (fun e => e == Event.armTimer) = 1) ∧
      (∀ e ∈ (runMain env w).takeWhile (fun e => !(e == Event.armTimer)),
        isNetworkEvent e = false)) ∧
    (∀ (env : Env) (w : World) (s : WDState), WDReachable env w s →
      s.fired = true →
      s.done ≠ some true ∧
      (s.done = none → WDStep s ⟨s.remaining, true, some false⟩)) := by
  constructor
  · intro env w
    have hcount0 :
        (mainAfterArm env w).countP (fun e => e == Event.armTimer) = 0 := by
      apply List.countP_eq_zero.mpr
      intro e he hq
      have he2 : e = Event.armTimer := by simpa using hq
      subst he2
      exact armTimer_not_mem_mainAfterArm env w he
    unfold runMain
    by_cases hA : w.parseDurationOk env.ACTION_TIMEOUT = false
    · rw [if_pos hA]
      refine ⟨by simp, ?_, ?_⟩
      · intro h
        rw [h] at hA
        simp at hA
      · intro e he
        have he2 := (List.takeWhile_sublist _).subset he
        simp at he2
        subst he2
        rfl
    · rw [if_neg hA]
      refine ⟨?_, fun _ => ?_, ?_⟩
      · simp [List.countP_cons, hcount0]
      · simp [List.countP_cons, hcount0]
      · intro e he
        rw [List.takeWhile_cons] at he
        simp at he
  · intro env w s hreach hfired
    have hinv : ∀ t : WDState, WDReachable env w t →
        t.fired = true → t.done ≠ some true := by
      intro t ht
      have ht2 : Relation.ReflTransGen WDStep ⟨runMain env w, false, none⟩ t := ht
      induction ht2 with
      | refl => intro h; simp at h
      | tail hr hstep ih =>
        cases hstep with
        | mainStep e rest => intro h; simp at h
        | fire rem => intro _; simp
        | watchdogFatal rem => intro _; simp
    refine ⟨hinv s hreach hfired, ?_⟩
    intro hdone
    obtain ⟨rem, f, d⟩ := s
    simp only at hfired hdone
    subst hfired
    subst hdone
    exact WDStep.watchdogFatal rem

/-- Witness for C4: in a fully valid direct run the timer is armed
exactly once, and after a fire step from the initial state the
process cannot exit normally and the watchdog's fatal step is
enabled. -/
theorem claim4_witness :
    (runMain envDirect worldAllGood).countP (fun e => e == Event.armTimer) = 1 ∧
    (⟨runMain envDirect worldAllGood, true, none⟩ : WDState).done ≠ some true ∧
    WDStep (⟨runMain envDirect worldAllGood, true, none⟩ : WDState)
      ⟨runMain envDirect worldAllGood, true, some false⟩ := by
  refine ⟨?_, ?_, ?_⟩
  · exact (claim4_watchdog.1 envDirect worldAllGood).2.1 rfl
  · exact (claim4_watchdog.2 envDirect worldAllGood
      ⟨runMain envDirect worldAllGood, true, none⟩
      (Relation.ReflTransGen.single (WDStep.fire _)) rfl).1
  · exact (claim4_watchdog.2 envDirect worldAllGood
      ⟨runMain envDirect worldAllGood, true, none⟩
      (Relation.ReflTransGen.single (WDStep.fire _)) rfl).2 rfl

/-- C5: in a run configured with a proxy, if establishing the proxy
session fails (unparseable proxy credential, or failed proxy dial —
which covers an unreachable proxy and a proxy identity mismatch),
then no connection attempt to the target ever appears in the trace
and the run ends with a fatal error. -/
theorem claim5_proxy_failure_target_never_dialed :
    ∀ (env : Env) (w : World), env.PROXY_HOST ≠ "" →
      (w.parsePrivateKeyOk env.PROXY_KEY = false ∨
        w.dialOk (proxyAddressOf env) = false) →
      (∀ e ∈ runMain env w, isTargetDial e = false) ∧
      (∃ msg, (runMain env w).getLast? = some (Event.exitFatal msg)) := by
  intro env w hproxy hfail
  unfold runMain
  by_cases hA : w.parseDurationOk env.ACTION_TIMEOUT = false
  · rw [if_pos hA]
    refine ⟨?_, ⟨"Failed to parse action timeout", by simp⟩⟩
    intro e he
    simp at he
    subst he
    rfl
  · rw [if_neg hA]
    unfold mainAfterArm
    by_cases hdir : env.DIRECTION ≠ "download" ∧ env.DIRECTION ≠ "upload"
    · rw [if_pos hdir]
      refine ⟨?_, ⟨"Failed to parse direction", by simp⟩⟩
      intro e he
      simp at he
      rcases he with rfl | rfl <;> rfl
    · rw [if_neg hdir]
      by_cases htm : w.parseDurationOk env.TIMEOUT = false
      · rw [if_pos htm]
        refine ⟨?_, ⟨"Failed to parse timeout", by simp⟩⟩
        intro e he
        simp at he
        rcases he with rfl | rfl <;> rfl
      · rw [if_neg htm]
        by_cases hhost : env.HOST = ""
        · rw [if_pos hhost]
          refine ⟨?_, ⟨"Failed to parse target host", by simp⟩⟩
          intro e he
          simp at he
          rcases he with rfl | rfl <;> rfl
        · rw [if_neg hhost]
          by_cases hkey : w.parsePrivateKeyOk env.KEY = false
          · rw [if_pos hkey]
            refine ⟨?_, ⟨"Failed to parse proxy key", by simp⟩⟩
            intro e he
            simp at he
            rcases he with rfl | rfl <;> rfl
          · rw [if_neg hkey]
            rw [if_pos hproxy]
            by_cases hpkey : w.parsePrivateKeyOk env.PROXY_KEY = false
            · rw [if_pos hpkey]
              refine ⟨?_, ⟨"Failed to parse proxy key", by simp⟩⟩
              intro e he
              simp at he
              rcases he with rfl | rfl <;> rfl
            · have hpd : w.dialOk (proxyAddressOf env) = false := by
                rcases hfail with h | h
                · exact absurd h hpkey
                · exact h
              rw [if_neg hpkey, if_pos hpd]
              refine ⟨?_, ⟨"Failed to connect to proxy", by simp⟩⟩
              intro e he
              simp at he
              rcases he with rfl | rfl | rfl <;> rfl

/-- Witness for C5: a fully proxied configuration whose proxy dial
fails produces a trace with no connection attempt to the target and a
fatal last event. -/
theorem claim5_witness :
    (∀ e ∈ runMain envProxied worldProxyDialFails, isTargetDial e = false) ∧
    (∃ msg, (runMain envProxied worldProxyDialFails).getLast? =
      some (Event.exitFatal msg)) :=
  claim5_proxy_failure_target_never_dialed envProxied worldProxyDialFails
    (by decide) (Or.inr rfl)

/-- C7 (counterexample): in a proxied run whose target handshake
fails after the proxy session was opened, the process exits fatally
(`log.Fatalf` runs `os.Exit`, skipping the deferred closes) with the
proxy session opened but never closed — so not every opened session
is closed on every exit path. -/
theorem claim7_counterexample :
    Event.openProxySession ∈ runMain envProxied worldHandshakeFails ∧
    Event.closeProxySession ∉ runMain envProxied worldHandshakeFails ∧
    (runMain envProxied worldHandshakeFails).getLast? =
      some (Event.exitFatal "new target conn error") := by
  decide

/-- C7 (amended): session close events occur exactly on the success
path — the target session's close event appears in the trace iff the
run exits normally, and the proxy session's close event appears iff
the run exits normally and a proxy session was opened; on fatal exits
the deferred closes are skipped and no close event appears. -/
theorem claim7_sessions_closed_iff_success :
    ∀ (env : Env) (w : World),
      (Event.closeTargetSession ∈ runMain env w ↔
        Event.exitNormal ∈ runMain env w) ∧
      (Event.closeProxySession ∈ runMain env w ↔
        (Event.exitNormal ∈ runMain env w ∧
          Event.openProxySession ∈ runMain env w)) := by
  intro env w
  unfold runMain
  by_cases hA : w.parseDurationOk env.ACTION_TIMEOUT = false
  · rw [if_pos hA]; simp
  · rw [if_neg hA]
    unfold mainAfterArm
    by_cases hdir : env.DIRECTION ≠ "download" ∧ env.DIRECTION ≠ "upload"
    · rw [if_pos hdir]; simp
    · rw [if_neg hdir]
      by_cases htm : w.parseDurationOk env.TIMEOUT = false
      · rw [if_pos htm]; simp
      · rw [if_neg htm]
        by_cases hhost : env.HOST = ""
        · rw [if_pos hhost]; simp
        · rw [if_neg hhost]
          by_cases hkey : w.parsePrivateKeyOk env.KEY = false
          · rw [if_pos hkey]; simp
          · rw [if_neg hkey]
            have hm := transferPhase_mem env w
            rcases htr : transferPhase env w with ⟨evs, res⟩
            rw [htr] at hm
            simp only at hm
            have hct : Event.closeTargetSession ∉ evs := fun hmem => by
              have := hm _ hmem
              simp [isTransferEvent] at this
            have hcp : Event.closeProxySession ∉ evs := fun hmem => by
              have := hm _ hmem
              simp [isTransferEvent] at this
            have hen : Event.exitNormal ∉ evs := fun hmem => by
              have := hm _ hmem
              simp [isTransferEvent] at this
            have hop : Event.openProxySession ∉ evs := fun hmem => by
              have := hm _ hmem
              simp [isTransferEvent] at this
            by_cases hproxy : env.PROXY_HOST ≠ ""
            · rw [if_pos hproxy]
              by_cases hpkey : w.parsePrivateKeyOk env.PROXY_KEY = false
              · rw [if_pos hpkey]; simp
              · rw [if_neg hpkey]
                by_cases hpd : w.dialOk (proxyAddressOf env) = false
                · rw [if_pos hpd]; simp
                · rw [if_neg hpd]
                  by_cases htun : w.proxyDialTargetOk = false
                  · rw [if_pos htun]; simp
                  · rw [if_neg htun]
                    by_cases hhs : w.newClientConnOk = false
                    · rw [if_pos hhs]; simp
                    · rw [if_neg hhs]
                      cases res with
                      | none => simp [finishTrace, hct, hcp, hen]
                      | some n => simp [finishTrace, hct, hcp, hen]
            · rw [if_neg hproxy]
              by_cases hdial : w.dialOk (targetAddressOf env) = false
              · rw [if_pos hdial]; simp
              · rw [if_neg hdial]
                cases res with
                | none => simp [finishTrace, hct, hcp, hen, hop]
                | some n => simp [finishTrace, hct, hcp, hen, hop]

/-- C8 (counterexample): with the expected target fingerprint (a
required configuration field) left empty but everything else valid,
the process does NOT abort at startup: it dials the target host (a
network event) and only then fails, during the handshake. -/
theorem claim8_counterexample :
    envEmptyFingerprint.FINGERPRINT = "" ∧
    Event.dialTargetDirect "target.example.com:22" ∈
      runMain envEmptyFingerprint worldDialFails ∧
    (runMain envEmptyFingerprint worldDialFails).getLast? =
      some (Event.exitFatal "Failed to connect to target") := by
  decide

/-- C8 (amended): the configuration conditions that `main` actually
checks at startup — a malformed action timeout, an invalid direction,
a malformed dial timeout, and an empty target host — are each fatal
before any network activity: the trace contains no network event and
ends with a fatal error.  (Emptiness of the other required fields is
not validated at startup; see the counterexample.) -/
theorem claim8_startup_validation :
    ∀ (env : Env) (w : World),
      (w.parseDurationOk env.ACTION_TIMEOUT = false ∨
        (env.DIRECTION ≠ "download" ∧ env.DIRECTION ≠ "upload") ∨
        w.parseDurationOk env.TIMEOUT = false ∨ env.HOST = "") →
      (∀ e ∈ runMain env w, isNetworkEvent e = false) ∧
      (∃ msg, (runMain env w).getLast? = some (Event.exitFatal msg)) := by
  intro env w hbad
  unfold runMain
  by_cases hA : w.parseDurationOk env.ACTION_TIMEOUT = false
  · rw [if_pos hA]
    refine ⟨?_, ⟨"Failed to parse action timeout", by simp⟩⟩
    intro e he
    simp at he
    subst he
    rfl
  · rw [if_neg hA]
    unfold mainAfterArm
    by_cases hdir : env.DIRECTION ≠ "download" ∧ env.DIRECTION ≠ "upload"
    · rw [if_pos hdir]
      refine ⟨?_, ⟨"Failed to parse direction", by simp⟩⟩
      intro e he
      simp at he
      rcases he with rfl | rfl <;> rfl
    · rw [if_neg hdir]
      by_cases htm : w.parseDurationOk env.TIMEOUT = false
      · rw [if_pos htm]
        refine ⟨?_, ⟨"Failed to parse timeout", by simp⟩⟩
        intro e he
        simp at he
        rcases he with rfl | rfl <;> rfl
      · rw [if_neg htm]
        by_cases hhost : env.HOST = ""
        · rw [if_pos hhost]
          refine ⟨?_, ⟨"Failed to parse target host", by simp⟩⟩
          intro e he
          simp at he
          rcases he with rfl | rfl <;> rfl
        · rcases hbad with h | h | h | h
          exacts [absurd h hA, absurd h hdir, absurd h htm, absurd h hhost]

/-- Witness for C8 (amended): an invalid direction aborts the run
fatally with no network event in the trace. -/
theorem claim8_witness :
    (∀ e ∈ runMain envBadDirection worldAllGood, isNetworkEvent e = false) ∧
    (∃ msg, (runMain envBadDirection worldAllGood).getLast? =
      some (Event.exitFatal msg)) :=
  claim8_startup_validation envBadDirection worldAllGood
    (Or.inr (Or.inl (by decide)))

/-- Sanity checks of the path and splitting model against the
documented behaviour of Go's `path.Join`, `path.Split`, `path.Clean`
and `strings.Split`. -/
lemma goPath_model_sanity :
    goPathJoin "/out" "x.txt" = "/out/x.txt" ∧
    goPathSplit "/a/b/x.txt" = ("/a/b/", "x.txt") ∧
    goPathJoin "/out" "" = "/out" ∧
    sourceFilesOf "a\nb" = ["a", "b"] ∧
    goPathClean "a/.." = "." ∧
    goPathClean "../a" = "../a" := by
  refine ⟨by decide, by decide, by decide, by decide, by decide, by decide⟩
